import Mathlib

/-!
# A verification model of the reed reference manager

This file gives a shallow embedding, in Lean 4, of the core logic of the
reed repository (a small Rust program organizing academic paper files and
their bibliographic metadata) and proves properties of that embedding.

The embedding covers:
* decimal rendering/parsing of unsigned 32-bit integers, as used by the
  version-string serializer and the year fields (`library.rs`, `model.rs`);
* the data model (`model.rs`): months, entry types, entry metadata,
  library entries, the persisted `LibraryFile` and the in-memory `Library`;
* the name assembler (`configuration.rs`, `util::assemble_name`);
* the bibliography importer (`import.rs`): per-record parsing with the
  partial-success policy and record selection;
* the query engine and removal logic (`library.rs`), with the regex engine
  abstracted behind an interface plus a concrete literal-pattern instance;
* JSON (de)serialization of the library at the level of a JSON value tree,
  including the custom hexadecimal digest codec (`model.rs`,
  `as_hex`/`from_hex`) and the custom version-string codec.

Machine integers (`u32`) are modelled as `Nat` with explicit range checks
where the Rust code checks ranges; file-system and I/O effects are modelled
by explicit state (lists of deleted paths, oracle results for writes);
Rust panics are modelled as distinguished outcomes, never as Lean partial
functions.
-/

namespace Reed

/-! ## Characters and strings

Rust `str::to_lowercase` is modelled by `Char.toLower` on every character;
the repository only ever lowercases ASCII month prefixes, tag names and
name-pattern substitutions, where the two coincide.
-/

/-- Model of Rust `str::to_lowercase` (ASCII-faithful). -/
def lowerStr (s : String) : String := ⟨s.data.map Char.toLower⟩

/-! ## Decimal rendering and parsing of unsigned integers

`natToDigitsChars` models the output of Rust `format!` on an unsigned
integer (plain decimal, no padding, no sign).  `parseU32` models
`u32::from_str`: an optional leading plus sign, at least one decimal
digit, nothing else, and a range check against `2^32`.
-/

/-- The decimal digit character for `n < 10`. -/
def digitChar (n : Nat) : Char := Char.ofNat (48 + n)

/-- Decimal digit expansion, structurally recursive on a fuel argument so
that it evaluates inside the kernel; the fuel is always at least the
value being printed plus one. -/
def natToDigitsCharsAux : Nat → Nat → List Char
  | _, 0 => []
  | n, fuel + 1 =>
    if n < 10 then [digitChar n]
    else natToDigitsCharsAux (n / 10) fuel ++ [digitChar (n % 10)]

/-- Decimal representation of a natural number, most significant digit
first.  Models Rust integer `Display`. -/
def natToDigitsChars (n : Nat) : List Char := natToDigitsCharsAux n (n + 1)

/-- Decimal rendering of a natural number as a `String`. -/
def natRepr (n : Nat) : String := ⟨natToDigitsChars n⟩

/-- Is `c` one of the characters 0-9? -/
def isDigitChar (c : Char) : Bool := 48 ≤ c.toNat && c.toNat ≤ 57

/-- Numeric value of a decimal digit character. -/
def digitVal (c : Char) : Nat := c.toNat - 48

/-- Accumulating decimal parser: consumes digits, fails on anything else. -/
def parseDigitsAux : List Char → Nat → Option Nat
  | [], acc => some acc
  | c :: cs, acc =>
    if isDigitChar c then parseDigitsAux cs (acc * 10 + digitVal c) else none

/-- Parse a nonempty all-digit character list as a natural number. -/
def parseDigits : List Char → Option Nat
  | [] => none
  | cs => parseDigitsAux cs 0

/-- Model of Rust `u32::from_str`: strip one optional leading plus sign,
require a nonempty digit string, reject values at or above `2^32`. -/
def parseU32 (cs : List Char) : Option Nat :=
  let body := if cs.head? = some '+' then cs.tail else cs
  match parseDigits body with
  | some v => if v < 4294967296 then some v else none
  | none => none

theorem digitChar_spec (n : Nat) (h : n < 10) :
    isDigitChar (digitChar n) = true ∧ digitVal (digitChar n) = n ∧
    digitChar n ≠ '.' ∧ digitChar n ≠ '+' := by
  interval_cases n <;> exact ⟨rfl, rfl, by decide, by decide⟩

theorem natToDigitsCharsAux_ne_nil (fuel n : Nat) (h : n < fuel) :
    natToDigitsCharsAux n fuel ≠ [] := by
  cases fuel with
  | zero => omega
  | succ f =>
    unfold natToDigitsCharsAux
    split <;> simp

theorem natToDigitsChars_ne_nil (n : Nat) : natToDigitsChars n ≠ [] :=
  natToDigitsCharsAux_ne_nil (n + 1) n (by omega)

theorem mem_natToDigitsCharsAux (fuel : Nat) :
    ∀ n, n < fuel → ∀ c ∈ natToDigitsCharsAux n fuel,
      ∃ d, d < 10 ∧ c = digitChar d := by
  induction fuel with
  | zero => intro n h; omega
  | succ f ih =>
    intro n hn c hc
    unfold natToDigitsCharsAux at hc
    split at hc
    · next h =>
      simp only [List.mem_singleton] at hc
      exact ⟨n, h, hc⟩
    · next h =>
      rcases List.mem_append.mp hc with h1 | h2
      · exact ih (n / 10) (by omega) c h1
      · simp only [List.mem_singleton] at h2
        exact ⟨n % 10, Nat.mod_lt _ (by omega), h2⟩

theorem mem_natToDigitsChars (n : Nat) :
    ∀ c ∈ natToDigitsChars n, ∃ d, d < 10 ∧ c = digitChar d :=
  mem_natToDigitsCharsAux (n + 1) n (by omega)

theorem parseDigitsAux_append (xs ys : List Char) (acc v : Nat)
    (h : parseDigitsAux xs acc = some v) :
    parseDigitsAux (xs ++ ys) acc = parseDigitsAux ys v := by
  induction xs generalizing acc with
  | nil => simp only [parseDigitsAux] at h; cases h; simp [parseDigitsAux]
  | cons c cs ih =>
    simp only [parseDigitsAux] at h ⊢
    split at h
    · next hd => simp only [List.cons_append, parseDigitsAux, hd, if_pos]; exact ih _ h
    · exact absurd h (by simp)

theorem parseDigitsAux_natToDigitsCharsAux (fuel : Nat) :
    ∀ n, n < fuel → ∀ acc,
      parseDigitsAux (natToDigitsCharsAux n fuel) acc =
        some (acc * 10 ^ (natToDigitsCharsAux n fuel).length + n) := by
  induction fuel with
  | zero => intro n h; omega
  | succ f ih =>
    intro n hn acc
    unfold natToDigitsCharsAux
    split
    · next h =>
      obtain ⟨h1, h2, _, _⟩ := digitChar_spec n h
      simp [parseDigitsAux, h1, h2]
    · next h =>
      have hd := digitChar_spec (n % 10) (Nat.mod_lt _ (by omega))
      have ihq := ih (n / 10) (by omega) acc
      rw [parseDigitsAux_append _ _ _ _ ihq]
      simp only [parseDigitsAux, hd.1, if_pos, hd.2.1]
      congr 1
      have hlen : (natToDigitsCharsAux (n / 10) f ++ [digitChar (n % 10)]).length =
          (natToDigitsCharsAux (n / 10) f).length + 1 := by simp
      rw [hlen, pow_succ]
      have := Nat.div_add_mod n 10
      ring_nf
      omega

theorem parseDigits_natToDigitsChars (n : Nat) :
    parseDigits (natToDigitsChars n) = some n := by
  obtain ⟨c, cs, hcs⟩ := List.exists_cons_of_ne_nil (natToDigitsChars_ne_nil n)
  have := parseDigitsAux_natToDigitsCharsAux (n + 1) n (by omega) 0
  rw [show natToDigitsCharsAux n (n + 1) = natToDigitsChars n from rfl] at this
  rw [hcs] at this ⊢
  simpa [parseDigits] using this

theorem parseU32_natToDigitsChars (n : Nat) (h : n < 4294967296) :
    parseU32 (natToDigitsChars n) = some n := by
  obtain ⟨c, cs, hcs⟩ := List.exists_cons_of_ne_nil (natToDigitsChars_ne_nil n)
  obtain ⟨d, hd10, hdc⟩ := mem_natToDigitsChars n c (by rw [hcs]; exact List.mem_cons_self _ _)
  have hplus : c ≠ '+' := hdc ▸ (digitChar_spec d hd10).2.2.2
  unfold parseU32
  rw [hcs]
  simp only [List.head?_cons, List.tail_cons, Option.some.injEq, if_neg hplus]
  rw [← hcs, parseDigits_natToDigitsChars]
  simp [h]

/-! ## Splitting on dots

Models Rust `str::split('.')` as used by `VersionSpec::from_str`
(`library.rs`).  Splitting an `n`-dot string yields `n+1` parts; the empty
string yields one empty part, exactly as in Rust.
-/

/-- Split a character list at every dot. -/
def splitDots : List Char → List (List Char)
  | [] => [[]]
  | c :: rest =>
    if c = '.' then [] :: splitDots rest
    else
      match splitDots rest with
      | [] => [[c]]
      | g :: gs => (c :: g) :: gs

theorem splitDots_ne_nil (cs : List Char) : splitDots cs ≠ [] := by
  induction cs with
  | nil => simp [splitDots]
  | cons c rest ih =>
    simp only [splitDots]
    split
    · simp
    · cases h : splitDots rest with
      | nil => simp
      | cons g gs => simp

theorem splitDots_no_dot (A : List Char) (hA : ∀ c ∈ A, c ≠ '.') :
    splitDots A = [A] := by
  induction A with
  | nil => rfl
  | cons a as ih =>
    have ha : a ≠ '.' := hA a (List.mem_cons_self _ _)
    have := ih (fun c hc => hA c (List.mem_cons_of_mem _ hc))
    simp only [splitDots, if_neg ha, this]

theorem splitDots_append_dot (A B : List Char) (hA : ∀ c ∈ A, c ≠ '.') :
    splitDots (A ++ '.' :: B) = A :: splitDots B := by
  induction A with
  | nil => simp [splitDots]
  | cons a as ih =>
    have ha : a ≠ '.' := hA a (List.mem_cons_self _ _)
    have := ih (fun c hc => hA c (List.mem_cons_of_mem _ hc))
    simp only [List.cons_append, splitDots, List.append_eq, if_neg ha, this]

/-! ## Version strings

`VersionSpec` and its string codec, from `library.rs`: serialization
formats `major.minor.patch`; `VersionSpec::from_str` splits on dots,
requires every part to parse as a `u32`, and requires exactly three parts.
-/

/-- Model of `VersionSpec` (`library.rs`): three `u32` components. -/
structure VersionSpec where
  major : Nat
  minor : Nat
  patch : Nat
deriving DecidableEq

/-- A `VersionSpec` is well formed when each component fits in a `u32`. -/
def VersionSpec.wf (v : VersionSpec) : Prop :=
  v.major < 4294967296 ∧ v.minor < 4294967296 ∧ v.patch < 4294967296

instance (v : VersionSpec) : Decidable v.wf := by
  unfold VersionSpec.wf; infer_instance

/-- Model of the `Display`/`Serialize` rendering of a `VersionSpec`:
the string `major.minor.patch` in decimal. -/
def versionToString (v : VersionSpec) : String :=
  ⟨natToDigitsChars v.major ++ '.' ::
    (natToDigitsChars v.minor ++ '.' :: natToDigitsChars v.patch)⟩

/-- Model of `VersionSpec::from_str` (`library.rs`): split on dots, parse
every part as `u32` (any failure is an error), require exactly three
parts, then assemble the record. -/
def versionFromStr (s : String) : Except String VersionSpec :=
  let digits := (splitDots s.data).map parseU32
  if digits.any (fun v => v.isNone) then .error "Version digit ill-formatted."
  else if digits.length ≠ 3 then .error "Version has wrong amount of digits."
  else
    match digits with
    | [some a, some b, some c] => .ok ⟨a, b, c⟩
    | _ => .error "Version has wrong amount of digits."

theorem natToDigitsChars_no_dot (n : Nat) : ∀ c ∈ natToDigitsChars n, c ≠ '.' := by
  intro c hc
  obtain ⟨d, hd, rfl⟩ := mem_natToDigitsChars n c hc
  exact (digitChar_spec d hd).2.2.1

theorem versionFromStr_versionToString (v : VersionSpec) (h : v.wf) :
    versionFromStr (versionToString v) = .ok v := by
  obtain ⟨h1, h2, h3⟩ := h
  unfold versionFromStr versionToString
  have e1 : splitDots (natToDigitsChars v.major ++ '.' ::
      (natToDigitsChars v.minor ++ '.' :: natToDigitsChars v.patch)) =
      natToDigitsChars v.major :: natToDigitsChars v.minor ::
        [natToDigitsChars v.patch] := by
    rw [splitDots_append_dot _ _ (natToDigitsChars_no_dot _),
      splitDots_append_dot _ _ (natToDigitsChars_no_dot _),
      splitDots_no_dot _ (natToDigitsChars_no_dot _)]
  simp only [e1, List.map_cons, List.map_nil,
    parseU32_natToDigitsChars v.major h1, parseU32_natToDigitsChars v.minor h2,
    parseU32_natToDigitsChars v.patch h3]
  simp

/-! ## Hexadecimal digest codec

Models `as_hex` and `from_hex` (`model.rs`) together with the behavior of
the `hex` crate: `hex::encode` renders each byte as two lowercase hex
digits; `hex::decode` accepts both cases and fails on an odd-length input
or a non-hex character.  `from_hex` then copies the decoded bytes into the
fixed 32-byte digest array with `GenericArray::clone_from_slice`, which
panics when the decoded length is not exactly 32; that panic is modelled
as the distinguished outcome `DecErr.panicked`.
-/

/-- Lowercase hexadecimal digit character for `n < 16`. -/
def hexDigitChar (n : Nat) : Char :=
  if n < 10 then Char.ofNat (48 + n) else Char.ofNat (87 + n)

/-- Model of `hex::encode`: two lowercase digits per byte, in order. -/
def as_hex (bytes : List Nat) : String :=
  ⟨bytes.foldr (fun b acc => hexDigitChar (b / 16) :: hexDigitChar (b % 16) :: acc) []⟩

/-- Value of a hexadecimal digit character; accepts both cases. -/
def hexDigitVal (c : Char) : Option Nat :=
  if 48 ≤ c.toNat ∧ c.toNat ≤ 57 then some (c.toNat - 48)
  else if 97 ≤ c.toNat ∧ c.toNat ≤ 102 then some (c.toNat - 87)
  else if 65 ≤ c.toNat ∧ c.toNat ≤ 70 then some (c.toNat - 55)
  else none

/-- Model of `hex::decode`: pairs of hex digits; `none` on odd length or a
bad character. -/
def hexDecodeChars : List Char → Option (List Nat)
  | [] => some []
  | [_] => none
  | c1 :: c2 :: rest =>
    match hexDigitVal c1, hexDigitVal c2, hexDecodeChars rest with
    | some h, some l, some bs => some ((h * 16 + l) :: bs)
    | _, _, _ => none

/-- Outcome of a failed deserialization step: a propagated serde error, or
a Rust panic (used to model `GenericArray::clone_from_slice` aborting on a
wrong-length slice). -/
inductive DecErr where
  | deError
  | panicked
deriving DecidableEq

/-- Model of `from_hex` (`model.rs`): decode the hex string (decode
failure becomes a serde custom error), then `clone_from_slice` into the
32-byte digest array — a panic when the length is different. -/
def from_hex (s : String) : Except DecErr (List Nat) :=
  match hexDecodeChars s.data with
  | some v => if v.length = 32 then .ok v else .error .panicked
  | none => .error .deError

/-- Is `c` a lowercase hexadecimal digit (0-9, a-f)? -/
def isLowerHexDigit (c : Char) : Bool :=
  (48 ≤ c.toNat && c.toNat ≤ 57) || (97 ≤ c.toNat && c.toNat ≤ 102)

theorem hexDigitChar_spec (n : Nat) (h : n < 16) :
    hexDigitVal (hexDigitChar n) = some n ∧ isLowerHexDigit (hexDigitChar n) = true := by
  interval_cases n <;> exact ⟨rfl, rfl⟩

theorem hexDecodeChars_as_hex (bytes : List Nat) (h : ∀ b ∈ bytes, b < 256) :
    hexDecodeChars (as_hex bytes).data = some bytes := by
  induction bytes with
  | nil => rfl
  | cons b bs ih =>
    have hb : b < 256 := h b (List.mem_cons_self _ _)
    have h1 := hexDigitChar_spec (b / 16) (by omega)
    have h2 := hexDigitChar_spec (b % 16) (by omega)
    have ihbs := ih (fun x hx => h x (List.mem_cons_of_mem _ hx))
    simp only [as_hex, List.foldr_cons] at ihbs ⊢
    simp only [hexDecodeChars, h1.1, h2.1, ihbs, Option.some.injEq]
    congr 1
    omega

theorem as_hex_lower (bytes : List Nat) (h : ∀ b ∈ bytes, b < 256) :
    (as_hex bytes).data.all isLowerHexDigit = true := by
  induction bytes with
  | nil => rfl
  | cons b bs ih =>
    have hb : b < 256 := h b (List.mem_cons_self _ _)
    have h1 := hexDigitChar_spec (b / 16) (by omega)
    have h2 := hexDigitChar_spec (b % 16) (by omega)
    have ihbs := ih (fun x hx => h x (List.mem_cons_of_mem _ hx))
    simp only [as_hex, List.foldr_cons, List.all_cons, h1.2, h2.2, Bool.true_and] at ihbs ⊢
    exact ihbs

theorem from_hex_as_hex (bytes : List Nat) (hlen : bytes.length = 32)
    (h : ∀ b ∈ bytes, b < 256) : from_hex (as_hex bytes) = .ok bytes := by
  simp [from_hex, hexDecodeChars_as_hex bytes h, hlen]

/-! ## The data model (`model.rs`)

`Month`, `LibraryEntryType`, `LibraryEntryMeta`, `LibraryEntry`,
`LibraryFile` and `Library`.  The digest (`FileDigest`, a 32-byte SHA-256
output array) is modelled as a `List Nat` of byte values; `TagMap`
(a `HashMap<String, String>`) is modelled as its underlying association
list.  `PathBuf` values are modelled as `String`s.
-/

/-- Model of `ParseMonthError` (`model.rs`). -/
inductive ParseMonthError where
  | unkown (descr : String)
  | outOfBounds (descr : String)
deriving DecidableEq

/-- Model of `LibraryEntryType` (`model.rs`). -/
inductive LibraryEntryType where
  | Article | Book | Booklet | Conference | InBook | InCollection
  | InProceedings | Manual | MasterThesis | Thesis | Misc | PHDThesis
  | Proceedings | Techreport | Unpublished
deriving DecidableEq

/-- Model of `Month` (`model.rs`). -/
inductive Month where
  | Jan | Feb | Mar | Apr | May | Jun | Jul | Aug | Sep | Oct | Nov | Dec
deriving DecidableEq

/-- The tag mapping kept from the original metadata file; models the
`TagMap` association (`HashMap<String, String>`) as its entry list. -/
def TagMap := List (String × String)
deriving DecidableEq

/-- Model of `LibraryEntryMeta` (`model.rs`).  `year` is a `u32`. -/
structure LibraryEntryMeta where
  key : String
  entry_type : LibraryEntryType
  title : String
  authors : List String
  year : Nat
  month : Option Month
  original_tags : Option TagMap
deriving DecidableEq

/-- Model of `LibraryEntry` (`model.rs`); the digest is the list of the
32 bytes of the SHA-256 output. -/
structure LibraryEntry where
  meta : LibraryEntryMeta
  tags : List String
  file_paths : List String
  digest : List Nat
deriving DecidableEq

/-- Model of `LibraryFile` (`library.rs`). -/
structure LibraryFile where
  creation_version : VersionSpec
  entries : List LibraryEntry
deriving DecidableEq

/-- Model of `Library` (`library.rs`); the backing path is a string. -/
structure Library where
  content : LibraryFile
  path : String
  changed : Bool
deriving DecidableEq

/-- `Display` rendering of a `Month` (`model.rs`): the full month name. -/
def monthDisplay : Month → String
  | .Jan => "January" | .Feb => "February" | .Mar => "March"
  | .Apr => "April" | .May => "May" | .Jun => "June"
  | .Jul => "July" | .Aug => "August" | .Sep => "September"
  | .Oct => "October" | .Nov => "November" | .Dec => "December"

/-- Model of `Month::from_number` (`model.rs`). -/
def monthFromNumber (num : Nat) : Except ParseMonthError Month :=
  match num with
  | 1 => .ok .Jan | 2 => .ok .Feb | 3 => .ok .Mar | 4 => .ok .Apr
  | 5 => .ok .May | 6 => .ok .Jun | 7 => .ok .Jul | 8 => .ok .Aug
  | 9 => .ok .Sep | 10 => .ok .Oct | 11 => .ok .Nov | 12 => .ok .Dec
  | _ => .error (.outOfBounds ("month " ++ natRepr num ++ " out of bounds"))

/-- Model of `Month::from_str` (`model.rs`): try a numeric literal first,
otherwise match the lowercased 3-character prefix. -/
def monthFromStr (s : String) : Except ParseMonthError Month :=
  match parseU32 s.data with
  | some num => monthFromNumber num
  | none =>
    let init := lowerStr ⟨s.data.take 3⟩
    match init with
    | "jan" => .ok .Jan | "feb" => .ok .Feb | "mar" => .ok .Mar
    | "apr" => .ok .Apr | "may" => .ok .May | "jun" => .ok .Jun
    | "jul" => .ok .Jul | "aug" => .ok .Aug | "sep" => .ok .Sep
    | "oct" => .ok .Oct | "nov" => .ok .Nov | "dec" => .ok .Dec
    | _ => .error (.unkown ("month " ++ init ++ " unkown"))

/-- The `Debug`/`Display` (and serde variant) name of an entry type
(`model.rs`): `Display` delegates to the derived `Debug`, which prints the
variant identifier. -/
def entryTypeName : LibraryEntryType → String
  | .Article => "Article" | .Book => "Book" | .Booklet => "Booklet"
  | .Conference => "Conference" | .InBook => "InBook"
  | .InCollection => "InCollection" | .InProceedings => "InProceedings"
  | .Manual => "Manual" | .MasterThesis => "MasterThesis"
  | .Thesis => "Thesis" | .Misc => "Misc" | .PHDThesis => "PHDThesis"
  | .Proceedings => "Proceedings" | .Techreport => "Techreport"
  | .Unpublished => "Unpublished"

/-- The serde variant name of a `Month` (`model.rs` derives). -/
def monthVariantName : Month → String
  | .Jan => "Jan" | .Feb => "Feb" | .Mar => "Mar" | .Apr => "Apr"
  | .May => "May" | .Jun => "Jun" | .Jul => "Jul" | .Aug => "Aug"
  | .Sep => "Sep" | .Oct => "Oct" | .Nov => "Nov" | .Dec => "Dec"

/-! ## The name assembler (`configuration.rs`)

`util::assemble_name` renders a filename from the original file stem, the
record metadata and the configuration, by chained whole-string
`str::replace` calls, one per placeholder, in the source order
`%F %f %K %k %A %a %L %l %T %t %Y %y %M %m`.  `replaceAll` models
`str::replace`: every non-overlapping occurrence, scanned left to right.
-/

/-- Fuel-driven scanner behind `replaceAll`; the fuel is at least the
length of the remaining text, and every step consumes at least one
character, so the fuel never runs out in `replaceAll`. -/
def replaceAllAux (pat rep : List Char) : Nat → List Char → List Char
  | _, [] => []
  | 0, s => s
  | fuel + 1, c :: rest =>
    if pat ≠ [] ∧ pat.isPrefixOf (c :: rest) then
      rep ++ replaceAllAux pat rep fuel ((c :: rest).drop pat.length)
    else
      c :: replaceAllAux pat rep fuel rest

/-- Replace every non-overlapping occurrence of `pat` in `s` by `rep`,
scanning left to right.  Models Rust `str::replace` for a nonempty
pattern (every pattern used by the assembler is two characters). -/
def replaceAll (pat rep s : List Char) : List Char :=
  replaceAllAux pat rep s.length s

/-- String-level wrapper for `replaceAll`. -/
def replaceS (s pat rep : String) : String := ⟨replaceAll pat.data rep.data s.data⟩

/-- Model of `ConfigurationVariables` (`configuration.rs`); paths are
strings, `max_author_names` is a `u32`. -/
structure ConfigurationVariables where
  document_location : String
  library_location : String
  name_pattern : String
  max_author_names : Nat
  author_separator : String
  move_files : Bool
deriving DecidableEq

/-- Model of `Configuration` (`configuration.rs`).  The source field is
named `variables`; that is a reserved word in Lean, so the field is `vars`
here. -/
structure Configuration where
  vars : ConfigurationVariables
  modified : Bool
deriving DecidableEq

/-- Model of `util::get_last_name` (`configuration.rs`): the text before
the first comma when a comma is present, otherwise the final
space-separated token. -/
def get_last_name (author : String) : Option String :=
  if author.contains ',' then (author.splitOn ",").head?
  else (author.splitOn " ").getLast?

/-- Concatenation of the taken author names with the configured separator:
models the enumerate/unzip loop of `assemble_name`, where the piece at
index 0 is the name itself and every later piece is the separator followed
by the name. -/
def concatWithSep (sep : String) : List String → String
  | [] => ""
  | x :: xs => xs.foldl (fun acc s => acc ++ sep ++ s) x

/-- Model of `util::assemble_name` (`configuration.rs`). -/
def assemble_name (original_name : String) (meta : LibraryEntryMeta)
    (conf : Configuration) : String :=
  let taken := meta.authors.take conf.vars.max_author_names
  let authors :=
    if meta.authors ≠ [] ∧ conf.vars.max_author_names ≠ 0 then
      concatWithSep conf.vars.author_separator taken
    else ""
  let authors_last_name :=
    if meta.authors ≠ [] ∧ conf.vars.max_author_names ≠ 0 then
      concatWithSep conf.vars.author_separator
        (taken.map (fun s => (get_last_name s).getD s))
    else ""
  let month :=
    match meta.month with
    | some m => monthDisplay m
    | none => ""
  replaceS (replaceS (replaceS (replaceS (replaceS (replaceS (replaceS
    (replaceS (replaceS (replaceS (replaceS (replaceS (replaceS (replaceS
      conf.vars.name_pattern
      "%F" original_name)
      "%f" (lowerStr original_name))
      "%K" meta.key)
      "%k" (lowerStr meta.key))
      "%A" authors)
      "%a" (lowerStr authors))
      "%L" authors_last_name)
      "%l" (lowerStr authors_last_name))
      "%T" meta.title)
      "%t" (lowerStr meta.title))
      "%Y" (natRepr meta.year))
      "%y" (natRepr (meta.year % 100)))
      "%M" month)
      "%m" (lowerStr month)

/-- The destination file name built by the import pipeline
(`import.rs`, line 148): the assembled name with the original extension
appended after a dot. -/
def nameWithExt (file_stem file_ext : String) (meta : LibraryEntryMeta)
    (conf : Configuration) : String :=
  assemble_name file_stem meta conf ++ "." ++ file_ext

/-- The default configuration variables (`configuration.rs`), with the
platform document directory abstracted as a parameter. -/
def defaultVariables (doc_dir : String) : ConfigurationVariables :=
  { document_location := doc_dir
    library_location := doc_dir ++ "/library.json"
    name_pattern := "%A-%y-%T"
    max_author_names := 2
    author_separator := "_"
    move_files := true }

/-! ## The bibliography importer (`import.rs`)

A `Bibliography` is one parsed block of the BibTeX document, as delivered
by the external `nom_bibtex` crate: the citation key, the entry-type word
and the tag list.  `import_bib` converts one block into a
`LibraryEntryMeta` or a per-record error; `bib_import` models the body of
`bib::import` after a successful whole-document parse: every block that
fails per-record conversion is dropped (with a warning on stderr, not
modelled) and the remaining records are collected in source order.
-/

/-- Model of `ImportError` (`import.rs`).  `noBibliographyFound` carries
the list of known keys that the formatted message enumerates. -/
inductive ImportError where
  | io (descr : String)
  | parse (descr : String)
  | noBibliographyFound (knownKeys : List String)
  | utf8 (descr : String)
  | unknownFile (descr : String)
  | corruptFilePath (descr : String)
deriving DecidableEq

/-- One parsed BibTeX block, as produced by the external parser crate. -/
structure Bibliography where
  citation_key : String
  entry_type : String
  tags : List (String × String)
deriving DecidableEq

/-- Model of `bib::parse_author_list` (`import.rs`): split on the literal
separator `" and "`. -/
def parse_author_list (authors : String) : List String :=
  authors.splitOn " and "

/-- Model of `bib::parse_entry_type` (`import.rs`): case-insensitive
table lookup into the closed entry-type enum. -/
def parse_entry_type (name : String) : Except ImportError LibraryEntryType :=
  match lowerStr name with
  | "article" => .ok .Article
  | "book" => .ok .Book
  | "booklet" => .ok .Booklet
  | "conference" => .ok .Conference
  | "inbook" => .ok .InBook
  | "incollection" => .ok .InCollection
  | "inproceedings" => .ok .InProceedings
  | "manual" => .ok .Manual
  | "masterthesis" => .ok .MasterThesis
  | "thesis" => .ok .Thesis
  | "misc" => .ok .Misc
  | "phdthesis" => .ok .PHDThesis
  | "proceedings" => .ok .Proceedings
  | "techreport" => .ok .Techreport
  | "unpublished" => .ok .Unpublished
  | _ => .error (.parse ("Entry type " ++ name ++ " not known"))

/-- Model of the `find_tag` closure in `bib::import_bib`: the first tag
whose lowercased name equals `tag`. -/
def findTag (b : Bibliography) (tag : String) : Option (String × String) :=
  b.tags.find? (fun p => lowerStr p.1 == tag)

/-- Model of the `find_tag_required` closure in `bib::import_bib`. -/
def findTagRequired (b : Bibliography) (tag : String) :
    Except ImportError (String × String) :=
  match findTag b tag with
  | some p => .ok p
  | none => .error (.parse ("Missing tag \x22" ++ tag ++ "\x22"))

/-- Model of `bib::import_bib` (`import.rs`): convert one parsed block
into entry metadata, failing on an unknown entry type, a missing required
tag, a malformed year or a malformed month. -/
def import_bib (b : Bibliography) : Except ImportError LibraryEntryMeta := do
  let tags : TagMap := b.tags
  let entry_type ← parse_entry_type b.entry_type
  let title ← findTagRequired b "title"
  let authorsTag ← findTagRequired b "author"
  let authors := parse_author_list authorsTag.2
  let yearTag ← findTagRequired b "year"
  let year ←
    match parseU32 yearTag.2.data with
    | some y => Except.ok y
    | none => Except.error (.parse ("Failed to parse year: " ++ yearTag.2))
  let month ←
    match findTag b "month" with
    | some p =>
      match monthFromStr p.2 with
      | .ok m => Except.ok (some m)
      | .error e =>
        Except.error (.parse (match e with
          | .unkown d => "Failed to parse month: " ++ d
          | .outOfBounds d => "Failed to parse month: " ++ d))
    | none => Except.ok none
  return { key := b.citation_key
           entry_type := entry_type
           title := title.2
           authors := authors
           year := year
           month := month
           original_tags := some tags }

/-- Model of `bib::import` (`import.rs`) after a successful whole-document
parse: keep every block whose conversion succeeds, in source order. -/
def bib_import (bibs : List Bibliography) : List LibraryEntryMeta :=
  bibs.filterMap (fun b => (import_bib b).toOption)

/-- Model of the record-selection step of `import` (`import.rs`,
lines 94-119): with an explicit key take the first record with that key,
otherwise require exactly one parsed record; both failures enumerate the
known keys. -/
def select_record : Option String → List LibraryEntryMeta →
    Except ImportError LibraryEntryMeta
  | some k, results =>
    match results.find? (fun bib => k == bib.key) with
    | some r => .ok r
    | none => .error (.noBibliographyFound (results.map (fun bib => bib.key)))
  | none, results =>
    if h : results.length = 1 then
      .ok (results.get ⟨0, by omega⟩)
    else
      .error (.noBibliographyFound (results.map (fun bib => bib.key)))

/-! ## The query engine and removal (`library.rs`)

The external regex crate is abstracted as a `RegexEngine`: compiling a
pattern either fails or yields a matcher.  `litEngine` is a concrete
instance that is faithful to the regex crate on patterns containing no
metacharacters: such a pattern compiles successfully and `is_match` holds
exactly when the pattern occurs as a substring.

`Library.query` is a direct translation of the source, including the slip
at `library.rs` line 206 where the regex applied to the type field is
compiled from `params.title` instead of `params.doc_type`.
-/

/-- An abstract regex engine: compiling a pattern fails (invalid pattern)
or yields a matcher. -/
structure RegexEngine where
  compile : String → Option (String → Bool)

/-- Does `pat` occur as a contiguous run inside `s`? -/
def listContains (pat s : List Char) : Bool :=
  match s with
  | [] => pat.isEmpty
  | _ :: rest => pat.isPrefixOf s || listContains pat rest

/-- Concrete engine, faithful to the regex crate on literal
(metacharacter-free) patterns: compilation always succeeds and a match is
a substring occurrence. -/
def litEngine : RegexEngine :=
  ⟨fun pat => some (fun s => listContains pat.data s.data)⟩

/-- Model of `QueryError` (`library.rs`); the invalid-regex variant keeps
the offending pattern. -/
inductive QueryError where
  | regex (pattern : String)
  | noMatch
  | io (descr : String)
deriving DecidableEq

/-- Model of `LibraryPersistenceError` (`library.rs`). -/
inductive LibraryPersistenceError where
  | io (descr : String)
  | serialization (descr : String)
deriving DecidableEq

/-- Model of `QueryParams` (`library.rs`). -/
structure QueryParams where
  author : Option String
  year : Option String
  title : Option String
  doc_type : Option String
  general : Option String
deriving DecidableEq

/-- Compile an optional pattern: `none` imposes no constraint, an invalid
pattern aborts the query (the `Regex::new(p)?` lines of `query`). -/
def compileOpt (eng : RegexEngine) (p : Option String) :
    Except QueryError (Option (String → Bool)) :=
  match p with
  | none => .ok none
  | some pat =>
    match eng.compile pat with
    | some m => .ok (some m)
    | none => .error (.regex pat)

/-- The per-entry test of `Library::query`: the chain of `continue`
branches of the loop body, including the duplicated title test inside the
general-pattern check, exactly as in the source. -/
def entryMatches (ar yr tr tyr gr : Option (String → Bool))
    (e : LibraryEntry) : Bool :=
  (match ar with
   | none => true
   | some r => e.meta.authors.any r) &&
  (match yr with
   | none => true
   | some r => r (natRepr e.meta.year)) &&
  (match tr with
   | none => true
   | some r => r e.meta.title) &&
  (match tyr with
   | none => true
   | some r => r (entryTypeName e.meta.entry_type)) &&
  (match gr with
   | none => true
   | some r =>
     e.meta.authors.any r || r e.meta.title || r (natRepr e.meta.year) ||
       r e.meta.title || r (entryTypeName e.meta.entry_type))

/-- Model of `Library::query` (`library.rs`): compile the five optional
patterns — the type regex is compiled from `params.title`, reproducing the
source — then collect the indices of the matching entries in order. -/
def Library.query (eng : RegexEngine) (lib : Library) (params : QueryParams) :
    Except QueryError (List Nat) := do
  let author_regex ← compileOpt eng params.author
  let year_regex ← compileOpt eng params.year
  let title_regex ← compileOpt eng params.title
  let type_regex ← compileOpt eng params.title
  let general_regex ← compileOpt eng params.general
  return (lib.content.entries.enum.filter
    (fun ie => entryMatches author_regex year_regex title_regex type_regex
      general_regex ie.2)).map (fun ie => ie.1)

/-- Insert into a descending-sorted list. -/
def insertDesc (x : Nat) : List Nat → List Nat
  | [] => [x]
  | y :: ys => if x ≥ y then x :: y :: ys else y :: insertDesc x ys

/-- Sort descending; models
`query_results.sort_unstable_by(|a, b| a.cmp(b).reverse())`. -/
def sortDesc (l : List Nat) : List Nat := l.foldr insertDesc []

/-- The deletion loop of `Library::remove_entry`, with the file system
modelled as the list of deleted paths (`std::fs::remove_file` is assumed
to succeed; its `Err` propagation is not the subject of any claim).
`none` models a Rust panic: `Vec::remove(i)` with `i` out of range, or the
source's read of `entries[i]` made after the removal at `i`. -/
def removeLoop (removeFile : Bool) :
    List LibraryEntry → List String → List Nat →
      Option (List LibraryEntry × List String)
  | entries, deleted, [] => some (entries, deleted)
  | entries, deleted, i :: rest =>
    if i < entries.length then
      let entries' := entries.eraseIdx i
      if removeFile then
        match entries'.get? i with
        | some e => removeLoop removeFile entries' (deleted ++ e.file_paths) rest
        | none => none
      else removeLoop removeFile entries' deleted rest
    else none

/-- Outcome of `Library::remove_entry` after a successful query: the new
library state together with the file paths deleted from disk, or a panic. -/
inductive RemoveOutcome where
  | ok (lib : Library) (deletedFiles : List String)
  | panicked
deriving DecidableEq

/-- Model of `Library::remove_entry` (`library.rs`): query, show the
matched entries to the confirmation callback, and on approval delete the
matched indices in descending order — reading each entry's file paths
only after its removal, as the source does. -/
def Library.remove_entry (eng : RegexEngine) (lib : Library)
    (params : QueryParams) (remove_file : Bool)
    (confirm_callback : List LibraryEntry → Bool) :
    Except QueryError RemoveOutcome := do
  let query_results ← Library.query eng lib params
  let query_entries := query_results.filterMap
    (fun i => lib.content.entries.get? i)
  if confirm_callback query_entries then
    match removeLoop remove_file lib.content.entries []
        (sortDesc query_results) with
    | some (entries', deleted) =>
      return .ok { content := { creation_version := lib.content.creation_version
                                entries := entries' }
                   path := lib.path
                   changed := true } deleted
    | none => return .panicked
  else
    return .ok lib []

/-- What `Drop for Library` (`library.rs`) does on teardown, with the
result of the attempted `store` supplied as an oracle: a clean library
stores nothing; a dirty one stores and `unwrap`s the result, so a failed
store panics. -/
inductive DropOutcome where
  | noop
  | saved
  | panicked
deriving DecidableEq

/-- Model of `impl Drop for Library` (`library.rs`, lines 137-144). -/
def dropLibrary (lib : Library)
    (storeResult : Except LibraryPersistenceError Unit) : DropOutcome :=
  if lib.changed then
    match storeResult with
    | .ok _ => .saved
    | .error _ => .panicked
  else .noop

/-! ## Persisted JSON form (`library.rs` / `model.rs` / serde)

`Library::store` serializes `LibraryFile` with `serde_json::to_writer`;
`Library::load` parses it back.  The embedding works at the level of a
JSON value tree: the derived serde implementations map each struct to an
object keyed by field name, a C-like enum to its variant-name string, an
`Option` to `null` or the plain value, a `Vec` to an array and a `u32` to
a number; the two custom codecs are the version string and the
hexadecimal digest.  The JSON text layer itself belongs to the external
`serde_json` crate and is not re-modelled.
-/

/-- A JSON value. -/
inductive Json where
  | null
  | str (s : String)
  | num (n : Nat)
  | arr (items : List Json)
  | obj (fields : List (String × Json))

/-- Serde encoding of a `Month`: the variant name. -/
def encodeMonth (m : Month) : Json := .str (monthVariantName m)

/-- Serde encoding of a `LibraryEntryType`: the variant name. -/
def encodeEntryType (t : LibraryEntryType) : Json := .str (entryTypeName t)

/-- Serde encoding of the retained original-tag mapping: a JSON object. -/
def encodeTagMap (t : TagMap) : Json :=
  .obj ((t : List (String × String)).map (fun p => (p.1, Json.str p.2)))

/-- Serde encoding of `LibraryEntryMeta`. -/
def encodeMeta (m : LibraryEntryMeta) : Json :=
  .obj [("key", .str m.key),
        ("entry_type", encodeEntryType m.entry_type),
        ("title", .str m.title),
        ("authors", .arr (m.authors.map Json.str)),
        ("year", .num m.year),
        ("month", match m.month with
                  | some mo => encodeMonth mo
                  | none => .null),
        ("original_tags", match m.original_tags with
                          | some t => encodeTagMap t
                          | none => .null)]

/-- Serde encoding of `LibraryEntry`; the digest uses `as_hex`
(`model.rs`). -/
def encodeEntry (e : LibraryEntry) : Json :=
  .obj [("meta", encodeMeta e.meta),
        ("tags", .arr (e.tags.map Json.str)),
        ("file_paths", .arr (e.file_paths.map Json.str)),
        ("digest", .str (as_hex e.digest))]

/-- Serde encoding of `LibraryFile`; the version uses the custom
string serializer (`library.rs`). -/
def encodeLibraryFile (lf : LibraryFile) : Json :=
  .obj [("creation_version", .str (versionToString lf.creation_version)),
        ("entries", .arr (lf.entries.map encodeEntry))]

/-- Look up a required field of a JSON object (serde derive rejects a
missing field). -/
def getFieldE (fields : List (String × Json)) (name : String) :
    Except DecErr Json :=
  match fields.lookup name with
  | some j => .ok j
  | none => .error .deError

/-- Decode a JSON string. -/
def decodeStr : Json → Except DecErr String
  | .str s => .ok s
  | _ => .error .deError

/-- Decode a JSON number as a `u32`. -/
def decodeU32 : Json → Except DecErr Nat
  | .num n => if n < 4294967296 then .ok n else .error .deError
  | _ => .error .deError

/-- Decode a `Month` from its variant name. -/
def decodeMonth (j : Json) : Except DecErr Month := do
  match (← decodeStr j) with
  | "Jan" => .ok .Jan | "Feb" => .ok .Feb | "Mar" => .ok .Mar
  | "Apr" => .ok .Apr | "May" => .ok .May | "Jun" => .ok .Jun
  | "Jul" => .ok .Jul | "Aug" => .ok .Aug | "Sep" => .ok .Sep
  | "Oct" => .ok .Oct | "Nov" => .ok .Nov | "Dec" => .ok .Dec
  | _ => .error .deError

/-- Decode a `LibraryEntryType` from its variant name. -/
def decodeEntryType (j : Json) : Except DecErr LibraryEntryType := do
  match (← decodeStr j) with
  | "Article" => .ok .Article | "Book" => .ok .Book
  | "Booklet" => .ok .Booklet | "Conference" => .ok .Conference
  | "InBook" => .ok .InBook | "InCollection" => .ok .InCollection
  | "InProceedings" => .ok .InProceedings | "Manual" => .ok .Manual
  | "MasterThesis" => .ok .MasterThesis | "Thesis" => .ok .Thesis
  | "Misc" => .ok .Misc | "PHDThesis" => .ok .PHDThesis
  | "Proceedings" => .ok .Proceedings | "Techreport" => .ok .Techreport
  | "Unpublished" => .ok .Unpublished
  | _ => .error .deError

/-- Decode a JSON array with a per-item decoder. -/
def decodeArr (f : Json → Except DecErr α) : Json → Except DecErr (List α)
  | .arr items => items.mapM f
  | _ => .error .deError

/-- Decode one entry of the tag mapping: the value must be a string. -/
def decodeTagPair (p : String × Json) : Except DecErr (String × String) :=
  (decodeStr p.2).map (fun v => (p.1, v))

/-- Decode the optional tag mapping. -/
def decodeTagMapOpt : Json → Except DecErr (Option TagMap)
  | .null => .ok none
  | .obj fields => (fields.mapM decodeTagPair).map some
  | _ => .error .deError

/-- Decode an optional `Month`. -/
def decodeMonthOpt : Json → Except DecErr (Option Month)
  | .null => .ok none
  | j => (decodeMonth j).map some

/-- Decode `LibraryEntryMeta` from a JSON object. -/
def decodeMeta (j : Json) : Except DecErr LibraryEntryMeta := do
  match j with
  | .obj fields =>
    let key ← decodeStr (← getFieldE fields "key")
    let entry_type ← decodeEntryType (← getFieldE fields "entry_type")
    let title ← decodeStr (← getFieldE fields "title")
    let authors ← decodeArr decodeStr (← getFieldE fields "authors")
    let year ← decodeU32 (← getFieldE fields "year")
    let month ← decodeMonthOpt (← getFieldE fields "month")
    let original_tags ← decodeTagMapOpt (← getFieldE fields "original_tags")
    return { key, entry_type, title, authors, year, month, original_tags }
  | _ => .error .deError

/-- Decode `LibraryEntry`; the digest goes through `from_hex`
(`model.rs`), whose wrong-length panic surfaces as `DecErr.panicked`. -/
def decodeEntry (j : Json) : Except DecErr LibraryEntry := do
  match j with
  | .obj fields =>
    let meta ← decodeMeta (← getFieldE fields "meta")
    let tags ← decodeArr decodeStr (← getFieldE fields "tags")
    let file_paths ← decodeArr decodeStr (← getFieldE fields "file_paths")
    let digest ← from_hex (← decodeStr (← getFieldE fields "digest"))
    return { meta, tags, file_paths, digest }
  | _ => .error .deError

/-- Decode `LibraryFile`; the version field goes through
`VersionSpec::from_str`, whose message becomes a serde custom error. -/
def decodeLibraryFile (j : Json) : Except DecErr LibraryFile := do
  match j with
  | .obj fields =>
    let vs ← decodeStr (← getFieldE fields "creation_version")
    let creation_version ←
      match versionFromStr vs with
      | .ok v => Except.ok v
      | .error _ => Except.error DecErr.deError
    let entries ← decodeArr decodeEntry (← getFieldE fields "entries")
    return { creation_version, entries }
  | _ => .error .deError

/-- Model of `Library::store` (`library.rs`): the JSON document written to
the backing path. -/
def Library.store_doc (lib : Library) : Json := encodeLibraryFile lib.content

/-- Model of `Library::load` (`library.rs`): parse the document found at
`path` into a clean (`changed = false`) library. -/
def Library.load_doc (path : String) (doc : Json) : Except DecErr Library :=
  (decodeLibraryFile doc).map
    (fun content => { content, path, changed := false })

/-- Well-formedness carried by every library the program builds: digests
are 32 bytes of byte values, years and version components fit in `u32`. -/
def LibraryEntry.wf (e : LibraryEntry) : Prop :=
  e.digest.length = 32 ∧ (∀ b ∈ e.digest, b < 256) ∧ e.meta.year < 4294967296

/-- Well-formedness of a whole in-memory library. -/
def Library.wf (lib : Library) : Prop :=
  lib.content.creation_version.wf ∧ ∀ e ∈ lib.content.entries, e.wf

instance (e : LibraryEntry) : Decidable e.wf := by
  unfold LibraryEntry.wf; infer_instance

instance (lib : Library) : Decidable lib.wf := by
  unfold Library.wf; infer_instance

/-! ## Round-trip lemmas for the persisted form -/

theorem ok_bind {ε α β : Type} (a : α) (f : α → Except ε β) :
    (Except.ok a >>= f) = f a := rfl

theorem map_ok {ε α β : Type} (f : α → β) (a : α) :
    (f <$> (Except.ok a : Except ε α)) = Except.ok (f a) := rfl

theorem decodeMonth_encodeMonth (m : Month) : decodeMonth (encodeMonth m) = .ok m := by
  cases m <;> rfl

theorem decodeEntryType_encodeEntryType (t : LibraryEntryType) :
    decodeEntryType (encodeEntryType t) = .ok t := by
  cases t <;> rfl

theorem mapM_decode_encode {α β : Type} (enc : α → β)
    (dec : β → Except DecErr α) (xs : List α)
    (h : ∀ a ∈ xs, dec (enc a) = .ok a) :
    (xs.map enc).mapM dec = .ok xs := by
  induction xs with
  | nil => rfl
  | cons a as ih =>
    have ha := h a (List.mem_cons_self _ _)
    have ihs := ih (fun x hx => h x (List.mem_cons_of_mem _ hx))
    simp only [List.map_cons, List.mapM_cons, ha, ihs]
    rfl

theorem decodeArr_strs (xs : List String) :
    decodeArr decodeStr (.arr (xs.map Json.str)) = .ok xs := by
  simp only [decodeArr]
  exact mapM_decode_encode Json.str decodeStr xs (fun a _ => rfl)

theorem decodeTagMapOpt_encodeTagMap (t : TagMap) :
    decodeTagMapOpt (encodeTagMap t) = .ok (some t) := by
  show decodeTagMapOpt (Json.obj ((t : List (String × String)).map
    (fun p => (p.1, Json.str p.2)))) = _
  simp only [decodeTagMapOpt,
    mapM_decode_encode (fun p : String × String => (p.1, Json.str p.2))
      decodeTagPair (t : List (String × String)) (fun a _ => rfl)]
  rfl

theorem decodeMonthOpt_some (mo : Month) :
    decodeMonthOpt (encodeMonth mo) = .ok (some mo) := by
  cases mo <;> rfl

theorem decodeMonthOpt_null : decodeMonthOpt .null = .ok none := rfl

theorem decodeTagMapOpt_null : decodeTagMapOpt .null = .ok none := rfl

theorem decodeMeta_encodeMeta (m : LibraryEntryMeta)
    (hy : m.year < 4294967296) : decodeMeta (encodeMeta m) = .ok m := by
  obtain ⟨key, et, title, authors, year, month, otags⟩ := m
  simp only at hy
  cases month <;> cases otags <;>
    simp [decodeMeta, encodeMeta, getFieldE, List.lookup, decodeStr, decodeU32,
      hy, ok_bind, map_ok, decodeEntryType_encodeEntryType, decodeMonthOpt_some,
      decodeArr_strs, decodeMonthOpt_null, decodeTagMapOpt_null,
      decodeTagMapOpt_encodeTagMap]

theorem decodeEntry_encodeEntry (e : LibraryEntry) (h : e.wf) :
    decodeEntry (encodeEntry e) = .ok e := by
  obtain ⟨hd32, hdb, hy⟩ := h
  obtain ⟨meta, tags, file_paths, digest⟩ := e
  simp only at hd32 hdb hy
  simp [decodeEntry, encodeEntry, getFieldE, List.lookup, decodeStr, ok_bind,
    map_ok, decodeMeta_encodeMeta meta hy, decodeArr_strs,
    from_hex_as_hex digest hd32 hdb]

theorem decodeLibraryFile_encodeLibraryFile (lf : LibraryFile)
    (hv : lf.creation_version.wf) (he : ∀ e ∈ lf.entries, e.wf) :
    decodeLibraryFile (encodeLibraryFile lf) = .ok lf := by
  obtain ⟨cv, entries⟩ := lf
  simp only at hv he
  have harr : decodeArr decodeEntry (.arr (entries.map encodeEntry)) =
      .ok entries := by
    simp only [decodeArr]
    exact mapM_decode_encode encodeEntry decodeEntry entries
      (fun a ha => decodeEntry_encodeEntry a (he a ha))
  simp [decodeLibraryFile, encodeLibraryFile, getFieldE, List.lookup,
    decodeStr, ok_bind, map_ok, versionFromStr_versionToString cv hv, harr]

/-! ## Concrete fixtures used by witnesses and counterexamples -/

/-- A representative well-formed library entry. -/
def demoEntry : LibraryEntry :=
  { meta := { key := "foo2020", entry_type := .Article, title := "On Cats",
              authors := ["Alice Smith", "Bob Jones"], year := 2020,
              month := some .Sep,
              original_tags := some ([("publisher", "ACME")] : TagMap) }
    tags := ["ml"]
    file_paths := ["/docs/ml/x.pdf"]
    digest := List.replicate 32 171 }

/-- A representative well-formed one-entry library. -/
def demoLibrary : Library :=
  { content := { creation_version := ⟨0, 1, 0⟩, entries := [demoEntry] }
    path := "/docs/library.json"
    changed := false }

/-! ## C6 — store/load round-trip -/

/-- C6: storing a library (of any size) to its path and loading it back
reproduces every field of every entry exactly — digest bytes (serialized
as lowercase hexadecimal text) and tag lists included — in the original
insertion order, and the loaded library is clean. -/
theorem c6_store_load_roundtrip (lib : Library) (h : lib.wf) :
    Library.load_doc lib.path (Library.store_doc lib) =
      .ok { content := lib.content, path := lib.path, changed := false } ∧
    ∀ e ∈ lib.content.entries,
      (as_hex e.digest).data.all isLowerHexDigit = true := by
  obtain ⟨hv, he⟩ := h
  constructor
  · simp [Library.load_doc, Library.store_doc, Except.map,
      decodeLibraryFile_encodeLibraryFile lib.content hv he]
  · intro e hme
    exact as_hex_lower e.digest (he e hme).2.1

/-- Witness for C6 at a concrete one-entry library. -/
theorem c6_store_load_roundtrip_witness :
    Library.load_doc demoLibrary.path (Library.store_doc demoLibrary) =
      .ok { content := demoLibrary.content, path := demoLibrary.path,
            changed := false } ∧
    ∀ e ∈ demoLibrary.content.entries,
      (as_hex e.digest).data.all isLowerHexDigit = true :=
  c6_store_load_roundtrip demoLibrary (by decide)

/-! ## C4 — partial-success parsing -/

theorem bib_import_eq (bibs : List Bibliography) :
    (bib_import bibs).map Except.ok =
      (bibs.filter (fun b => (import_bib b).isOk)).map
        (fun b => import_bib b) := by
  induction bibs with
  | nil => rfl
  | cons b bs ih =>
    simp only [bib_import] at ih ⊢
    cases hb : import_bib b with
    | ok r =>
      have h1 : (import_bib b).toOption = some r := by rw [hb]; rfl
      have h2 : (import_bib b).isOk = true := by rw [hb]; rfl
      rw [@List.filterMap_cons_some _ _ (fun b => (import_bib b).toOption) b bs r h1,
        @List.filter_cons_of_pos _ (fun b => (import_bib b).isOk) b bs h2,
        List.map_cons, List.map_cons, hb, ih]
    | error e =>
      have h1 : (import_bib b).toOption = none := by rw [hb]; rfl
      have h2 : ¬ (import_bib b).isOk = true := by rw [hb]; exact (by simp [Except.isOk, Except.toBool])
      rw [@List.filterMap_cons_none _ _ (fun b => (import_bib b).toOption) b bs h1,
        @List.filter_cons_of_neg _ (fun b => (import_bib b).isOk) b bs h2, ih]

/-- C4: for a document made of N well-formed blocks and M blocks that
fail per-record conversion, `bib::import` returns exactly N records, in
source order, regardless of M — failing blocks are dropped and never
abort the parse. -/
theorem c4_parser_partial_success (bibs : List Bibliography) (N M : Nat)
    (hN : N = (bibs.filter (fun b => (import_bib b).isOk)).length)
    (_hM : M = (bibs.filter (fun b => !(import_bib b).isOk)).length) :
    (bib_import bibs).length = N ∧
    (bib_import bibs).map Except.ok =
      (bibs.filter (fun b => (import_bib b).isOk)).map
        (fun b => import_bib b) := by
  subst hN
  refine ⟨?_, bib_import_eq bibs⟩
  have := congrArg List.length (bib_import_eq bibs)
  simpa using this

/-- A well-formed BibTeX block. -/
def demoBibGood1 : Bibliography :=
  { citation_key := "foo2020", entry_type := "Article",
    tags := [("title", "On Cats"), ("author", "Alice Smith and Bob Jones"),
             ("year", "2020"), ("month", "sep")] }

/-- A block that fails per-record conversion: its year is malformed. -/
def demoBibBad : Bibliography :=
  { citation_key := "broken", entry_type := "article",
    tags := [("title", "T"), ("author", "X"), ("year", "20x0")] }

/-- A second well-formed block. -/
def demoBibGood2 : Bibliography :=
  { citation_key := "bar2021", entry_type := "book",
    tags := [("Title", "On Dogs"), ("AUTHOR", "Carol"), ("Year", "2021")] }

/-- Witness for C4: a document with two well-formed and one malformed
block parses to exactly the two good records, in source order. -/
theorem c4_parser_partial_success_witness :
    (bib_import [demoBibGood1, demoBibBad, demoBibGood2]).length = 2 ∧
    (bib_import [demoBibGood1, demoBibBad, demoBibGood2]).map Except.ok =
      ([demoBibGood1, demoBibBad, demoBibGood2].filter
        (fun b => (import_bib b).isOk)).map (fun b => import_bib b) :=
  c4_parser_partial_success [demoBibGood1, demoBibBad, demoBibGood2] 2 1
    (by decide) (by decide)

/-! ## C5 — record selection -/

theorem select_record_find_none (k : String) (rs : List LibraryEntryMeta)
    (hfind : rs.find? (fun bib => k == bib.key) = none) :
    select_record (some k) rs =
      .error (.noBibliographyFound (rs.map LibraryEntryMeta.key)) := by
  show (match rs.find? (fun bib => k == bib.key) with
        | some r => Except.ok r
        | none => Except.error
            (ImportError.noBibliographyFound (rs.map (fun bib => bib.key)))) =
      Except.error (.noBibliographyFound (rs.map LibraryEntryMeta.key))
  rw [hfind]

theorem select_record_find_some (k : String) (rs : List LibraryEntryMeta)
    (r : LibraryEntryMeta)
    (hfind : rs.find? (fun bib => k == bib.key) = some r) :
    select_record (some k) rs = .ok r := by
  show (match rs.find? (fun bib => k == bib.key) with
        | some r => Except.ok r
        | none => Except.error
            (ImportError.noBibliographyFound (rs.map (fun bib => bib.key)))) =
      Except.ok r
  rw [hfind]

/-- C5: selecting the record to import.  With an explicit key the first
record with that key is returned, and when no record carries the key the
error enumerates every known key; without a key, selection succeeds
exactly on a one-record document and otherwise the error enumerates every
known key. -/
theorem c5_record_selection :
    (∀ (k : String) (rs : List LibraryEntryMeta),
      (∃ r ∈ rs, r.key = k) →
        ∃ r, select_record (some k) rs = .ok r ∧ r.key = k ∧ r ∈ rs) ∧
    (∀ (k : String) (rs : List LibraryEntryMeta),
      (∀ r ∈ rs, r.key ≠ k) →
        select_record (some k) rs =
          .error (.noBibliographyFound (rs.map LibraryEntryMeta.key))) ∧
    (∀ r : LibraryEntryMeta, select_record none [r] = .ok r) ∧
    (∀ rs : List LibraryEntryMeta, rs.length ≠ 1 →
        select_record none rs =
          .error (.noBibliographyFound (rs.map LibraryEntryMeta.key))) := by
  refine ⟨?_, ?_, ?_, ?_⟩
  · intro k rs hex
    have hsome : (rs.find? (fun bib => k == bib.key)).isSome := by
      rw [List.find?_isSome]
      obtain ⟨r, hr, hk⟩ := hex
      exact ⟨r, hr, by simp [hk]⟩
    obtain ⟨r, hr⟩ := Option.isSome_iff_exists.mp hsome
    refine ⟨r, select_record_find_some k rs r hr, ?_,
      List.mem_of_find?_eq_some hr⟩
    have hbeq := List.find?_some hr
    exact (eq_of_beq hbeq).symm
  · intro k rs hnone
    refine select_record_find_none k rs ?_
    rw [List.find?_eq_none]
    intro r hr h
    exact hnone r hr (eq_of_beq h).symm
  · intro r
    rfl
  · intro rs hlen
    exact dif_neg hlen

/-- The two records of the specification example. -/
def specRecs : List LibraryEntryMeta :=
  [{ key := "foo2020", entry_type := .Article, title := "A",
     authors := ["X"], year := 2020, month := none, original_tags := none },
   { key := "bar2021", entry_type := .Book, title := "B",
     authors := ["Y"], year := 2021, month := none, original_tags := none }]

/-- Witness for C5: on the two-record example document, selecting with key
foo2020 yields that record, and selecting without a key fails with the
error enumerating both keys. -/
theorem c5_record_selection_witness :
    (∃ r, select_record (some "foo2020") specRecs = .ok r ∧
      r.key = "foo2020" ∧ r ∈ specRecs) ∧
    select_record none specRecs =
      .error (.noBibliographyFound (specRecs.map LibraryEntryMeta.key)) :=
  ⟨c5_record_selection.1 "foo2020" specRecs
    ⟨specRecs.head (by decide), by decide⟩,
   c5_record_selection.2.2.2 specRecs (by decide)⟩

/-! ## C8 — vetoed removal leaves the library untouched -/

/-- C8: whenever the query of a remove-by-query call succeeds and the
confirmation callback vetoes, the call returns successfully, the library
value (entry list, dirty flag, path) is exactly the one before the call,
and no file is deleted from disk. -/
theorem c8_veto_unchanged (eng : RegexEngine) (lib : Library)
    (params : QueryParams) (remove_file : Bool)
    (confirm : List LibraryEntry → Bool) (qs : List Nat)
    (hq : Library.query eng lib params = .ok qs)
    (hveto : confirm (qs.filterMap (fun i => lib.content.entries.get? i)) =
      false) :
    Library.remove_entry eng lib params remove_file confirm =
      .ok (.ok lib []) := by
  simp only [Library.remove_entry, hq, ok_bind, hveto]
  rfl

/-- Witness for C8: vetoing a match-everything query on the demo library
returns it byte-for-byte unchanged with no deletions. -/
theorem c8_veto_unchanged_witness :
    Library.remove_entry litEngine demoLibrary
      ⟨none, none, none, none, none⟩ true (fun _ => false) =
      .ok (.ok demoLibrary []) :=
  c8_veto_unchanged litEngine demoLibrary ⟨none, none, none, none, none⟩
    true (fun _ => false) [0] rfl rfl

/-! ## C2 — removal deletes the wrong files (or panics) -/

/-- An entry whose files live at `a.pdf`. -/
def c2EntryA : LibraryEntry :=
  { meta := { key := "a", entry_type := .Article, title := "A",
              authors := ["X"], year := 1, month := none,
              original_tags := none }
    tags := []
    file_paths := ["a.pdf"]
    digest := List.replicate 32 0 }

/-- An entry whose files live at `b.pdf`. -/
def c2EntryB : LibraryEntry :=
  { meta := { key := "b", entry_type := .Article, title := "B",
              authors := ["Y"], year := 2, month := none,
              original_tags := none }
    tags := []
    file_paths := ["b.pdf"]
    digest := List.replicate 32 0 }

/-- One-entry library for the panic case. -/
def c2LibOne : Library :=
  { content := { creation_version := ⟨0, 1, 0⟩, entries := [c2EntryA] }
    path := "lib.json"
    changed := false }

/-- Two-entry library for the wrong-file case. -/
def c2LibTwo : Library :=
  { content := { creation_version := ⟨0, 1, 0⟩, entries := [c2EntryA, c2EntryB] }
    path := "lib.json"
    changed := false }

/-- C2 (code bug): `remove_entry` reads `entries[i]` after `remove(i)`.
With one matching entry that is last in the list, the read is out of
bounds and the program panics; with a matching entry followed by another
entry, the files deleted from disk are those of the following, unmatched
entry (`b.pdf`), while the matched entry's own `a.pdf` is never deleted. -/
theorem c2_remove_entry_deletes_wrong_files :
    Library.remove_entry litEngine c2LibOne ⟨none, none, none, none, none⟩
      true (fun _ => true) = .ok .panicked ∧
    Library.remove_entry litEngine c2LibTwo ⟨none, some "1", none, none, none⟩
      true (fun _ => true) =
      .ok (.ok { content := { creation_version := ⟨0, 1, 0⟩,
                              entries := [c2EntryB] }
                 path := "lib.json"
                 changed := true } ["b.pdf"]) ∧
    c2EntryA.file_paths = ["a.pdf"] := by
  refine ⟨?_, ?_, rfl⟩ <;> rfl

/-! ## C3 — teardown of a dirty library panics on flush failure -/

/-- C3 (code bug): `Drop for Library` stores a dirty library and
`unwrap`s the result, so a failing flush at teardown panics instead of
being reported and swallowed; a clean library attempts nothing. -/
theorem c3_drop_panics_on_flush_failure :
    dropLibrary { content := { creation_version := ⟨0, 1, 0⟩, entries := [] }
                  path := "p", changed := true }
      (.error (.io "disk full")) = .panicked ∧
    dropLibrary { content := { creation_version := ⟨0, 1, 0⟩, entries := [] }
                  path := "p", changed := true }
      (.ok ()) = .saved ∧
    dropLibrary { content := { creation_version := ⟨0, 1, 0⟩, entries := [] }
                  path := "p", changed := false }
      (.error (.io "disk full")) = .noop :=
  ⟨rfl, rfl, rfl⟩

/-! ## C1 — the type pattern is never used by the query -/

/-- A library whose single entry is a Book. -/
def c1Lib : Library :=
  { content := { creation_version := ⟨0, 1, 0⟩
                 entries := [{ meta := { key := "k", entry_type := .Book,
                                         title := "T", authors := ["X"],
                                         year := 1999, month := none,
                                         original_tags := none }
                               tags := []
                               file_paths := ["t.pdf"]
                               digest := List.replicate 32 0 }] }
    path := "lib.json"
    changed := false }

/-- A query constraining only the type field. -/
def c1Params : QueryParams :=
  { author := none, year := none, title := none,
    doc_type := some "Article", general := none }

/-- C1 (code bug): the query compiles the regex for the type field from
`params.title` (`library.rs` line 206), so the supplied type pattern is
never consulted: a Book entry matches a type-only query for Article even
though the pattern Article does not match the type name Book, and
changing `doc_type` never changes any query result. -/
theorem c1_type_pattern_ignored :
    Library.query litEngine c1Lib c1Params = .ok [0] ∧
    listContains "Article".data
      (entryTypeName ((c1Lib.content.entries.head?.map
        (fun e => e.meta.entry_type)).getD .Misc)).data = false ∧
    (∀ (eng : RegexEngine) (lib : Library) (p : QueryParams)
        (d1 d2 : Option String),
      Library.query eng lib { p with doc_type := d1 } =
        Library.query eng lib { p with doc_type := d2 }) :=
  ⟨rfl, rfl, fun _ _ _ _ _ => rfl⟩

/-! ## C7 — the two-digit-year placeholder -/

/-- The record of the specification example, with a variable year. -/
def aliceMeta (y : Nat) : LibraryEntryMeta :=
  { key := "smith", entry_type := .Article, title := "On Cats",
    authors := ["Alice Smith"], year := y, month := none,
    original_tags := none }

/-- The default configuration over an abstract document directory. -/
def defaultConf : Configuration :=
  { vars := defaultVariables "/docs", modified := false }

/-- C7 counterexample: the %y placeholder does not render two digits.
With year 2005 the default pattern renders `Alice Smith-5-On Cats`
(year mod 100 printed with no zero padding), not the two-digit
`Alice Smith-05-On Cats` the claim requires. -/
theorem c7_two_digit_year_counterexample :
    assemble_name "doc" (aliceMeta 2005) defaultConf = "Alice Smith-5-On Cats" ∧
    "Alice Smith-5-On Cats" ≠ "Alice Smith-05-On Cats" :=
  ⟨rfl, by decide⟩

/-- C7 amended: the %y placeholder renders the year modulo 100 in
decimal with no zero padding; on the specification example (year 2020)
this is the two-digit `20` and the rendered name is
`Alice Smith-20-On Cats`, to which the original extension is appended. -/
theorem c7_year_placeholder_amended :
    assemble_name "doc" (aliceMeta 2020) defaultConf = "Alice Smith-20-On Cats" ∧
    nameWithExt "doc" "pdf" (aliceMeta 2020) defaultConf =
      "Alice Smith-20-On Cats.pdf" ∧
    assemble_name "doc" (aliceMeta 2005) defaultConf = "Alice Smith-5-On Cats" ∧
    natRepr (2005 % 100) = "5" :=
  ⟨rfl, rfl, rfl, rfl⟩

/-! ## C9 — purity and (non-)locality of name assembly -/

/-- Configuration with pattern `%T-%y` for the locality counterexample. -/
def c9Conf : Configuration :=
  { vars := { document_location := "/d", library_location := "/d/l.json",
              name_pattern := "%T-%y", max_author_names := 2,
              author_separator := "_", move_files := true }
    modified := false }

/-- A record whose title is the literal text `%y`. -/
def c9Meta (y : Nat) : LibraryEntryMeta :=
  { key := "k", entry_type := .Article, title := "%y", authors := [],
    year := y, month := none, original_tags := none }

/-- C9 counterexample: name assembly is not token-local.  The two records
differ only in the year — the field referenced by the %y placeholder —
yet the outputs `19-19` and `20-20` do not share the common
`(%T token)-` prefix that token-locality would force: because the %T
substitution happens first, the title text `%y` is later replaced by the
year, so the year change also changes the %T token's output. -/
theorem c9_token_locality_counterexample :
    (c9Meta 2019).title = (c9Meta 2020).title ∧
    (c9Meta 2019).key = (c9Meta 2020).key ∧
    (c9Meta 2019).authors = (c9Meta 2020).authors ∧
    (c9Meta 2019).month = (c9Meta 2020).month ∧
    (c9Meta 2019).entry_type = (c9Meta 2020).entry_type ∧
    assemble_name "s" (c9Meta 2019) c9Conf = "19-19" ∧
    assemble_name "s" (c9Meta 2020) c9Conf = "20-20" ∧
    ¬ ∃ (tp t1 t2 : String),
        "19-19" = tp ++ "-" ++ t1 ∧ "20-20" = tp ++ "-" ++ t2 := by
  refine ⟨rfl, rfl, rfl, rfl, rfl, rfl, rfl, ?_⟩
  rintro ⟨⟨tpd⟩, ⟨t1d⟩, ⟨t2d⟩, h1, h2⟩
  have h1d : ['1', '9', '-', '1', '9'] = (tpd ++ ['-']) ++ t1d :=
    congrArg String.data h1
  have h2d : ['2', '0', '-', '2', '0'] = (tpd ++ ['-']) ++ t2d :=
    congrArg String.data h2
  rw [List.append_assoc] at h1d h2d
  cases tpd with
  | nil =>
    rw [List.nil_append] at h1d
    injection h1d with hc _
    exact absurd hc (by decide)
  | cons c cs =>
    rw [List.cons_append] at h1d h2d
    injection h1d with hc1 _
    injection h2d with hc2 _
    rw [← hc1] at hc2
    exact absurd hc2 (by decide)

/-- C9 amended: name assembly is pure and extensional in exactly the
inputs it reads — the stem, the record's key, title, authors, year and
month, and the configuration's name pattern, author limit and separator.
Two calls agreeing on those (whatever their other fields, such as the
retained original tags or the move/copy policy) render the same string. -/
theorem c9_purity_amended (s : String) (m1 m2 : LibraryEntryMeta)
    (c1 c2 : Configuration)
    (hkey : m1.key = m2.key) (htitle : m1.title = m2.title)
    (hauthors : m1.authors = m2.authors) (hyear : m1.year = m2.year)
    (hmonth : m1.month = m2.month)
    (hpat : c1.vars.name_pattern = c2.vars.name_pattern)
    (hmax : c1.vars.max_author_names = c2.vars.max_author_names)
    (hsep : c1.vars.author_separator = c2.vars.author_separator) :
    assemble_name s m1 c1 = assemble_name s m2 c2 := by
  unfold assemble_name
  rw [hkey, htitle, hauthors, hyear, hmonth, hpat, hmax, hsep]

/-- Witness for the amended C9: changing only the retained original tags
and the configuration's modified flag leaves the rendered name unchanged. -/
theorem c9_purity_amended_witness :
    assemble_name "doc" (aliceMeta 2020) defaultConf =
      assemble_name "doc"
        { aliceMeta 2020 with original_tags := some ([("x", "y")] : TagMap) }
        { defaultConf with modified := true } :=
  c9_purity_amended "doc" (aliceMeta 2020)
    { aliceMeta 2020 with original_tags := some ([("x", "y")] : TagMap) }
    defaultConf { defaultConf with modified := true }
    rfl rfl rfl rfl rfl rfl rfl rfl

/-! ## C10 — a wrong-length digest panics the load -/

/-- A persisted document whose single entry carries a valid 2-byte hex
digest (`abcd`) instead of the 32 bytes of a SHA-256 output. -/
def c10Doc : Json :=
  .obj [("creation_version", .str "0.1.0"),
        ("entries", .arr
          [.obj [("meta", encodeMeta (aliceMeta 2020)),
                 ("tags", .arr []),
                 ("file_paths", .arr [.str "x.pdf"]),
                 ("digest", .str "abcd")]])]

/-- C10 (code bug): loading a library whose digest field is valid hex of
the wrong byte length panics (`GenericArray::clone_from_slice`) instead
of returning a deserialization error: the 2-byte digest `abcd` decodes
fine as hex, and the failure `Library::load` produces is the modelled
panic, not the serde error path taken for invalid hex such as `zz`. -/
theorem c10_wrong_length_digest_panics :
    hexDecodeChars "abcd".data = some [171, 205] ∧
    from_hex "abcd" = .error .panicked ∧
    Library.load_doc "p" c10Doc = .error .panicked ∧
    from_hex "zz" = .error .deError :=
  ⟨rfl, rfl, rfl, rfl⟩
